import Mathlib

/-!
Verification of the `hteaml` HTML templating library (crates `hteaml` and
`hteaml-macro`).

Shallow embedding notes:
- `Str<'a> = Cow<'a, str>` is modelled as `String`: the renderer writes owned and
  borrowed strings identically, so the ownership distinction is unobservable in
  render output.
- `render_to_buf(&self, buf: &mut String) -> fmt::Result` is modelled as a total
  function `… → String → String` returning the new buffer: the `fmt::Write`
  implementation for `String` never returns an error, so the `fmt::Result` is
  always `Ok` on every path exercised here.
- The proc-macro parser consumes proc-macro token trees through `syn`.  Tokens
  are modelled by `Tok`: groups arrive pre-structured (the host lexer is an
  external collaborator per the spec), and a braced group holds the host Rust
  expression as an opaque payload (the spec calls ExprSlot an opaque host
  expression; its inner validity is out of scope).
- `syn` primitive parses (`Ident`, `LitStr`, `Token![:]`, group matchers)
  consume input only on success; compound parses such as `Attr::parse` leave
  behind whatever their successful sub-parses consumed.  Cursors are threaded
  explicitly, and `MAttr.parse` returns its final cursor even on failure so
  that `advance_to(&fork)` semantics are reproduced exactly.
- `syn` defers the leftover-tokens-in-a-group check ("unexpected token") to the
  end of the root parse; the model performs the identical check eagerly at the
  end of `MTag.parse`, which yields the same overall accept/reject behaviour
  for this grammar.
- Loops in the source (`while let Ok(attr) = fork.parse()`, the sequence
  collection loops) and the mutually recursive descent are given a fuel
  parameter for structural termination.  Each loop iteration and each
  descent into a parenthesised group consumes at least one token, so the fuel
  bounds chosen at the call sites are never exhausted on any input.
-/

namespace Hteaml

/-! ## Runtime document model (src/hteaml/src/lib.rs) -/

/-- HTML tag attribute (`struct Attr { key: Str, val: Str }`). -/
structure Attr where
  key : String
  val : String
deriving DecidableEq

/-- HTML comment (`struct Comment(Str)`). -/
structure Comment where
  text : String
deriving DecidableEq

mutual
/-- Top level HTML markup (`enum Html`): a tag, a comment, or a sequence. -/
inductive Html where
  | tag : Tag → Html
  | comment : Comment → Html
  | html : List Html → Html
/-- An HTML tag (`struct Tag { name, attributes, content, self_closing }`).
`Tag.mk name attributes content self_closing`. -/
inductive Tag where
  | mk : String → List Attr → List Content → Bool → Tag
/-- Content of an HTML tag (`enum Content { Html, Str }`). -/
inductive Content where
  | html : Html → Content
  | str : String → Content
end

/-- Field accessor for `Tag.name` (the builder method names `Tag.content` and
`Tag.self_closing` mirror the Rust methods, so the stored fields get distinct
accessor names). -/
def Tag.name : Tag → String
  | .mk n _ _ _ => n

/-- Field accessor for `Tag.attributes`. -/
def Tag.attributes : Tag → List Attr
  | .mk _ a _ _ => a

/-- Field accessor for the `content` field of `Tag`. -/
def Tag.storedContent : Tag → List Content
  | .mk _ _ c _ => c

/-- Field accessor for the `self_closing` field of `Tag`. -/
def Tag.isSelfClosing : Tag → Bool
  | .mk _ _ _ s => s

/-! ## Renderer -/

/-- `impl Render for Str`: `buf.write_str(self)`. -/
def Str.render_to_buf (s : String) (buf : String) : String :=
  buf ++ s

/-- `impl Render for Comment`: `write!(buf, "<!-- {} -->", self.0)`. -/
def Comment.render_to_buf (c : Comment) (buf : String) : String :=
  buf ++ "<!-- " ++ c.text ++ " -->"

/-- `impl Render for Attr`: bare key when the value is empty, else
`key="val"` (the value is written verbatim, unescaped). -/
def Attr.render_to_buf (a : Attr) (buf : String) : String :=
  if a.val = "" then buf ++ a.key
  else buf ++ a.key ++ "=\"" ++ a.val ++ "\""

/-- The attribute loop in `Tag::render_to_buf`: for each attribute emit one
space, then the attribute. -/
def attrsRender : List Attr → String → String
  | [], buf => buf
  | a :: rest, buf => attrsRender rest (a.render_to_buf (buf ++ " "))

mutual
/-- `impl Render for Html`: dispatch on the variant; a sequence renders its
items in order into the shared buffer. -/
def Html.render_to_buf : Html → String → String
  | .tag t, buf => Tag.render_to_buf t buf
  | .comment c, buf => Comment.render_to_buf c buf
  | .html l, buf => htmlListRender l buf
/-- `h.iter().try_for_each(|e| e.render_to_buf(buf))`. -/
def htmlListRender : List Html → String → String
  | [], buf => buf
  | h :: rest, buf => htmlListRender rest (Html.render_to_buf h buf)
/-- `impl Render for Tag`: emit `<name`, the attributes, then either stop at
`>` when self-closing or emit `>`, the content items in order, and the
closing tag. -/
def Tag.render_to_buf : Tag → String → String
  | .mk name attrs cont sc, buf =>
    let buf1 := attrsRender attrs (buf ++ "<" ++ name)
    if sc then buf1 ++ ">"
    else contentListRender cont (buf1 ++ ">") ++ "</" ++ name ++ ">"
/-- `self.content.iter().try_for_each(|c| c.render_to_buf(buf))`. -/
def contentListRender : List Content → String → String
  | [], buf => buf
  | c :: rest, buf => contentListRender rest (Content.render_to_buf c buf)
/-- `impl Render for Content`: dispatch to the HTML node or the string. -/
def Content.render_to_buf : Content → String → String
  | .html h, buf => Html.render_to_buf h buf
  | .str s, buf => Str.render_to_buf s buf
end

/-- `Render::render` for `Html`: render into a fresh `String` buffer. -/
def Html.render (h : Html) : String := h.render_to_buf ""

/-- `Render::render` for `Tag`. -/
def Tag.render (t : Tag) : String := t.render_to_buf ""

/-- `Render::render` for `Comment`. -/
def Comment.render (c : Comment) : String := c.render_to_buf ""

/-- `Render::render` for `Content`. -/
def Content.render (c : Content) : String := c.render_to_buf ""

/-! ## Builder API -/

/-- `Tag::new(name)`: empty attributes and content, not self-closing. -/
def Tag.new (name : String) : Tag := .mk name [] [] false

/-- `Tag::attr(key, val)`: push one attribute at the end of the list. -/
def Tag.attr (t : Tag) (key val : String) : Tag :=
  match t with
  | .mk n a c s => .mk n (a ++ [⟨key, val⟩]) c s

/-- `Tag::content(c)`: push one content item at the end of the list. -/
def Tag.content (t : Tag) (c : Content) : Tag :=
  match t with
  | .mk n a cs s => .mk n a (cs ++ [c]) s

/-- `Tag::self_closing()`: set the flag; attributes and content are kept. -/
def Tag.self_closing (t : Tag) : Tag :=
  match t with
  | .mk n a c _ => .mk n a c true

/-- `Comment::new(comment)`. -/
def Comment.new (s : String) : Comment := ⟨s⟩

/-! ## Macro token model (src/hteaml-macro/src/lib.rs) -/

/-- Proc-macro token trees as the `syn` cursor sees them.  A `paren` group
carries its inner token list; a `brace` group carries the host Rust
expression it wraps as an opaque payload. -/
inductive Tok where
  | ident : String → Tok
  | lit : String → Tok
  | colon : Tok
  | equals : Tok
  | paren : List Tok → Tok
  | brace : String → Tok

/-- Parse cursor: remaining tokens of the current stream plus an absolute
source position (tokens consumed from the start of the invocation). -/
structure Cursor where
  toks : List Tok
  pos : Nat

/-- Structured parse error: a source position and an expectation message
(`syn::Error::new(span, msg)`). -/
structure ParseErr where
  pos : Nat
  msg : String
deriving DecidableEq

/-- Macro-side attribute value / tag name (`enum Value { Expr, Ident, Str }`). -/
inductive MValue where
  | ident : String → MValue
  | str : String → MValue
  | expr : String → MValue
deriving DecidableEq

/-- Macro-side attribute (`struct Attr { key: Value, val: Option<Value> }`). -/
structure MAttr where
  key : MValue
  val : Option MValue
deriving DecidableEq

mutual
/-- Macro-side `enum Html { Tag, Expr, Seq }`. -/
inductive MHtml where
  | tag : MTag → MHtml
  | expr : String → MHtml
  | seq : List MHtml → MHtml
/-- Macro-side `struct Tag { name: Value, attrs: Vec<Attr>, cont: Content }`.
`MTag.mk name attrs cont`. -/
inductive MTag where
  | mk : MValue → List MAttr → MContent → MTag
/-- Macro-side `enum Content { Str, Expr, Html, Seq, None }`. -/
inductive MContent where
  | str : String → MContent
  | expr : String → MContent
  | html : MHtml → MContent
  | seq : List MContent → MContent
  | none : MContent
end

/-! ## Macro parser -/

/-- `input.parse::<syn::Ident>()`: consumes one identifier token on success,
consumes nothing on failure. -/
def parseIdent (c : Cursor) : Except ParseErr (String × Cursor) :=
  match c.toks with
  | .ident s :: rest => .ok (s, ⟨rest, c.pos + 1⟩)
  | _ => .error ⟨c.pos, "expected identifier"⟩

/-- `input.parse::<syn::LitStr>()`. -/
def parseLitStr (c : Cursor) : Except ParseErr (String × Cursor) :=
  match c.toks with
  | .lit s :: rest => .ok (s, ⟨rest, c.pos + 1⟩)
  | _ => .error ⟨c.pos, "expected string literal"⟩

/-- `input.parse::<Token![:]>()`. -/
def parseColon (c : Cursor) : Except ParseErr Cursor :=
  match c.toks with
  | .colon :: rest => .ok ⟨rest, c.pos + 1⟩
  | _ => .error ⟨c.pos, "expected colon"⟩

/-- `BracedExpr::parse`: `syn::braced!` plus the inner host expression, which
is opaque to this grammar. -/
def BracedExpr.parse (c : Cursor) : Except ParseErr (String × Cursor) :=
  match c.toks with
  | .brace e :: rest => .ok (e, ⟨rest, c.pos + 1⟩)
  | _ => .error ⟨c.pos, "expected curly braces"⟩

/-- `Value::parse`: try `Ident`, then `LitStr`, then `BracedExpr`; the three
alternatives are lexically disjoint at the first token.  Consumes nothing on
failure. -/
def MValue.parse (c : Cursor) : Except ParseErr (MValue × Cursor) :=
  match parseIdent c with
  | .ok (s, c') => .ok (.ident s, c')
  | .error _ =>
    match parseLitStr c with
    | .ok (s, c') => .ok (.str s, c')
    | .error _ =>
      match BracedExpr.parse c with
      | .ok (e, c') => .ok (.expr e, c')
      | .error _ =>
        .error ⟨c.pos,
          "expected either a string literal, token or a \x7b braced Rust expression \x7d"⟩

/-- `Attr::parse`.  The second component of the result is the cursor position
the stream was left at, returned even on failure: a failing `Attr::parse`
leaves behind what its successful sub-parses consumed (key and colon), and
`advance_to(&fork)` in `Tag::parse` commits exactly that position. -/
def MAttr.parse (c : Cursor) : Except ParseErr MAttr × Cursor :=
  match MValue.parse c with
  | .ok (k, c1) =>
    match parseColon c1 with
    | .ok c2 =>
      match MValue.parse c2 with
      | .ok (v, c3) => (.ok ⟨k, some v⟩, c3)
      | .error _ => (.error ⟨c2.pos, "expected key:value pairs for attributes"⟩, c2)
    | .error _ => (.ok ⟨k, Option.none⟩, c1)
  | .error e =>
    match parseColon c with
    | .ok c2 =>
      match MValue.parse c2 with
      | .ok (_, c3) => (.error ⟨c3.pos, "expected key:value pairs for attributes"⟩, c3)
      | .error _ => (.error ⟨c2.pos, "expected key:value pairs for attributes"⟩, c2)
    | .error _ => (.error e, c)

/-- The speculative attribute loop `while let Ok(attr) = fork.parse()` in
`Tag::parse`.  Returns the parsed attributes and the final fork cursor
(including tokens consumed by the last, failing `Attr::parse`).  Every
successful `MAttr.parse` consumes at least one token, so the fuel
`c.toks.length + 1` used at the call site is never exhausted. -/
def attrLoop : Nat → Cursor → List MAttr × Cursor
  | 0, c => ([], c)
  | fuel + 1, c =>
    match MAttr.parse c with
    | (.ok a, c') =>
      let r := attrLoop fuel c'
      (a :: r.1, r.2)
    | (.error _, c') => ([], c')

/-- One-token lookahead `input.peek(Paren) || input.peek(Brace)`. -/
def peekParenBrace (c : Cursor) : Bool :=
  match c.toks with
  | .paren _ :: _ => true
  | .brace _ :: _ => true
  | _ => false

/-- One-token lookahead `input.peek(Paren) || input.peek(Brace) ||
input.peek(LitStr)`. -/
def peekContentStart (c : Cursor) : Bool :=
  match c.toks with
  | .paren _ :: _ => true
  | .brace _ :: _ => true
  | .lit _ :: _ => true
  | _ => false

mutual
/-- `Tag::parse`: match a parenthesised group, parse the name, run the
speculative attribute loop on a fork, commit the fork only when it produced
at least one attribute, then resolve the tag body.  The final emptiness
check models `syn`'s leftover-token detection for the group. -/
def MTag.parse : Nat → Cursor → Except ParseErr (MTag × Cursor)
  | 0, c => .error ⟨c.pos, "recursion limit"⟩
  | fuel + 1, c =>
    match c.toks with
    | .paren inner :: rest =>
      match MValue.parse ⟨inner, c.pos + 1⟩ with
      | .error e => .error e
      | .ok (name, c1) =>
        let la := attrLoop (c1.toks.length + 1) c1
        let attrs := la.1
        let c2 := if attrs.isEmpty then c1 else la.2
        match tagBody fuel c2 with
        | .error e => .error e
        | .ok (cont, c3) =>
          if c3.toks.isEmpty then
            .ok (⟨name, attrs, cont⟩, ⟨rest, c3.pos + 1⟩)
          else .error ⟨c3.pos, "unexpected token"⟩
    | _ => .error ⟨c.pos, "expected parentheses"⟩
/-- Tag body resolution in `Tag::parse`: on a leading `=` consume it and
require one `Content`; otherwise try `Content` directly, and on failure the
tag has no body (`Content::None`, rendered as `.self_closing()`). -/
def tagBody : Nat → Cursor → Except ParseErr (MContent × Cursor)
  | 0, c => .error ⟨c.pos, "recursion limit"⟩
  | fuel + 1, c =>
    match c.toks with
    | .equals :: rest => MContent.parse fuel ⟨rest, c.pos + 1⟩
    | _ =>
      match MContent.parse fuel c with
      | .ok r => .ok r
      | .error _ => .ok (.none, c)
/-- `Content::parse`: `LitStr`, else `BracedExpr`, else `Html`; then the
sequence-collection rule on lookahead paren, brace, or string literal. -/
def MContent.parse : Nat → Cursor → Except ParseErr (MContent × Cursor)
  | 0, c => .error ⟨c.pos, "recursion limit"⟩
  | fuel + 1, c =>
    let first : Except ParseErr (MContent × Cursor) :=
      match parseLitStr c with
      | .ok (s, c') => .ok (MContent.str s, c')
      | .error _ =>
        match BracedExpr.parse c with
        | .ok (e, c') => .ok (MContent.expr e, c')
        | .error _ =>
          match MHtml.parse fuel c with
          | .ok (h, c') => .ok (MContent.html h, c')
          | .error _ =>
            .error (ParseErr.mk c.pos
              "expected a string literal, a Rust expression or atag")
    match first with
    | .error e => .error e
    | .ok (el, c1) =>
      if peekContentStart c1 then contentSeqLoop fuel c1 [el]
      else .ok (el, c1)
/-- The sequence loop in `Content::parse`: keep parsing `Content` items until
the stream is exhausted, propagating errors. -/
def contentSeqLoop : Nat → Cursor → List MContent → Except ParseErr (MContent × Cursor)
  | 0, c, _ => .error ⟨c.pos, "recursion limit"⟩
  | fuel + 1, c, acc =>
    if c.toks.isEmpty then .ok (.seq acc, c)
    else
      match MContent.parse fuel c with
      | .error e => .error e
      | .ok (x, c') => contentSeqLoop fuel c' (acc ++ [x])
/-- `Html::parse`: a tag or a braced expression, then the sequence-collection
rule on lookahead paren or brace. -/
def MHtml.parse : Nat → Cursor → Except ParseErr (MHtml × Cursor)
  | 0, c => .error ⟨c.pos, "recursion limit"⟩
  | fuel + 1, c =>
    let first : Except ParseErr (MHtml × Cursor) :=
      match MTag.parse fuel c with
      | .ok (t, c') => .ok (MHtml.tag t, c')
      | .error _ =>
        match BracedExpr.parse c with
        | .ok (e, c') => .ok (MHtml.expr e, c')
        | .error e => .error e
    match first with
    | .error e => .error e
    | .ok (el, c1) =>
      if peekParenBrace c1 then htmlSeqLoop fuel c1 [el]
      else .ok (el, c1)
/-- The sequence loop in `Html::parse`: keep parsing `Html` items until the
stream is exhausted, propagating errors. -/
def htmlSeqLoop : Nat → Cursor → List MHtml → Except ParseErr (MHtml × Cursor)
  | 0, c, _ => .error ⟨c.pos, "recursion limit"⟩
  | fuel + 1, c, acc =>
    if c.toks.isEmpty then .ok (.seq acc, c)
    else
      match MHtml.parse fuel c with
      | .error e => .error e
      | .ok (h, c') => htmlSeqLoop fuel c' (acc ++ [h])
end

mutual
/-- Total size of a token tree, counting group delimiters. -/
def tokSize : Tok → Nat
  | .paren l => 1 + toksSize l
  | _ => 1
/-- Total size of a token list. -/
def toksSize : List Tok → Nat
  | [] => 0
  | t :: ts => tokSize t + toksSize ts
end

/-- Fuel bound for the whole parse: every fuel-consuming step either descends
one level in the grammar (at most four levels per token) or consumes at least
one token, so this bound is never exhausted. -/
def parseFuel (toks : List Tok) : Nat := 4 * toksSize toks + 8

/-- The `hteaml!` macro entry point: `parse_macro_input!(stream as Html)` —
parse one `Html` and require the whole invocation stream to be consumed. -/
def hteaml (stream : List Tok) : Except ParseErr MHtml :=
  match MHtml.parse (parseFuel stream) ⟨stream, 0⟩ with
  | .error e => .error e
  | .ok (h, c) => if c.toks.isEmpty then .ok h else .error ⟨c.pos, "unexpected token"⟩

/-! ## Macro expansion (`ToTokens`)

The generated code is a chain of builder calls on the runtime types; expansion
is modelled as a function from the macro AST to the runtime tree.  Host Rust
expressions spliced by `quote!` evaluate at run time to caller-supplied
values; an `Env` supplies those bindings (opaque payload to value), one for
each splice position. -/

/-- Bindings for spliced host expressions: value position (`Into<Str>`),
content position (`.content(#e)`), and top level (`Html::from(#e)`). -/
structure Env where
  vstr : String → String
  cont : String → Content
  html : String → Html

/-- `Value::to_tokens`: an identifier is stringified to its literal text, a
string literal yields its contents, an expression is spliced. -/
def MValue.compile (env : Env) : MValue → String
  | .ident s => s
  | .str s => s
  | .expr e => env.vstr e

/-- `Attr::to_tokens`: `.attr(#key, #val)` with an empty string literal when
the value was omitted. -/
def MAttr.compile (env : Env) (a : MAttr) : String × String :=
  (a.key.compile env,
   match a.val with
   | some v => v.compile env
   | Option.none => "")

/-- The `#(#attrs)*` splice in `Tag::to_tokens`: apply `.attr` for each parsed
attribute in order. -/
def applyAttrs (env : Env) : Tag → List MAttr → Tag
  | t, [] => t
  | t, a :: rest =>
    applyAttrs env (t.attr (MAttr.compile env a).1 (MAttr.compile env a).2) rest

mutual
/-- `Html::to_tokens`: a tag builds `Html::Tag(..)`, an expression splices
`Html::from(#e)`, a sequence builds `Html::Html(vec![..])`. -/
def MHtml.compile (env : Env) : MHtml → Html
  | .tag t => .tag (MTag.compile env t)
  | .expr e => env.html e
  | .seq l => .html (compileHtmlList env l)
/-- Elementwise compilation of a sequence. -/
def compileHtmlList (env : Env) : List MHtml → List Html
  | [] => []
  | h :: rest => MHtml.compile env h :: compileHtmlList env rest
/-- `Tag::to_tokens`: `Tag::new(#name)`, the attribute calls, then the content
calls. -/
def MTag.compile (env : Env) : MTag → Tag
  | .mk name attrs cont => MContent.apply env cont (applyAttrs env (Tag.new (name.compile env)) attrs)
/-- `Content::to_tokens` applied to the tag under construction: `.content(..)`
for each item, `.self_closing()` for `Content::None`. -/
def MContent.apply (env : Env) : MContent → Tag → Tag
  | .str s, t => t.content (.str s)
  | .expr e, t => t.content (env.cont e)
  | .html h, t => t.content (.html (MHtml.compile env h))
  | .seq l, t => applyContentList env l t
  | .none, t => t.self_closing
/-- Elementwise application of a content sequence. -/
def applyContentList (env : Env) : List MContent → Tag → Tag
  | [], t => t
  | c :: rest, t => applyContentList env rest (MContent.apply env c t)
end

/-- Environment used to evaluate expression-free examples (no claim exercises
a spliced expression, so the bindings are arbitrary defaults). -/
def defaultEnv : Env :=
  ⟨fun s => s, fun s => .str s, fun _ => .html []⟩

/-- Concatenation of a list of strings, in order, with no separator. -/
def strConcat : List String → String
  | [] => ""
  | s :: rest => s ++ strConcat rest

/-! ## Buffer-threading lemmas

Every renderer function only appends to the buffer it receives; the output of
rendering into a non-empty buffer is the old buffer followed by the render of
the node into an empty buffer. -/

theorem attrRenderToBufAppend (a : Attr) (b : String) :
    a.render_to_buf b = b ++ a.render_to_buf "" := by
  by_cases h : a.val = "" <;>
    simp [Attr.render_to_buf, h, String.append_assoc, String.empty_append]

theorem attrsRender_append (l : List Attr) (b : String) :
    attrsRender l b = b ++ attrsRender l "" := by
  induction l generalizing b with
  | nil => simp [attrsRender, String.append_empty]
  | cons a rest ih =>
    simp only [attrsRender]
    rw [ih (a.render_to_buf (b ++ " ")), ih (a.render_to_buf ("" ++ " ")),
      attrRenderToBufAppend a (b ++ " "), attrRenderToBufAppend a ("" ++ " ")]
    simp [String.append_assoc, String.empty_append]

theorem commentRenderToBufAppend (c : Comment) (b : String) :
    c.render_to_buf b = b ++ c.render_to_buf "" := by
  simp [Comment.render_to_buf, String.append_assoc, String.empty_append]

theorem strRenderToBufAppend (s b : String) :
    Str.render_to_buf s b = b ++ Str.render_to_buf s "" := by
  simp [Str.render_to_buf, String.empty_append]

mutual
theorem htmlRenderToBufAppend (h : Html) (b : String) :
    Html.render_to_buf h b = b ++ Html.render_to_buf h "" := by
  cases h with
  | tag t => simp only [Html.render_to_buf]; exact tagRenderToBufAppend t b
  | comment c => simp only [Html.render_to_buf]; exact commentRenderToBufAppend c b
  | html l => simp only [Html.render_to_buf]; exact htmlListRender_append l b
theorem htmlListRender_append (l : List Html) (b : String) :
    htmlListRender l b = b ++ htmlListRender l "" := by
  cases l with
  | nil => simp only [htmlListRender]; simp [String.append_empty]
  | cons h t =>
    simp only [htmlListRender]
    rw [htmlListRender_append t (Html.render_to_buf h b),
      htmlListRender_append t (Html.render_to_buf h ""),
      htmlRenderToBufAppend h b, String.append_assoc]
theorem tagRenderToBufAppend (t : Tag) (b : String) :
    Tag.render_to_buf t b = b ++ Tag.render_to_buf t "" := by
  cases t with
  | mk n attrs cont sc =>
    cases sc with
    | true =>
      simp only [Tag.render_to_buf, if_pos]
      rw [attrsRender_append attrs (b ++ "<" ++ n), attrsRender_append attrs ("" ++ "<" ++ n)]
      simp [String.empty_append, String.append_assoc]
    | false =>
      simp only [Tag.render_to_buf, Bool.false_eq_true, if_false]
      rw [contentListRender_append cont (attrsRender attrs (b ++ "<" ++ n) ++ ">"),
        contentListRender_append cont (attrsRender attrs ("" ++ "<" ++ n) ++ ">"),
        attrsRender_append attrs (b ++ "<" ++ n), attrsRender_append attrs ("" ++ "<" ++ n)]
      simp [String.empty_append, String.append_assoc]
theorem contentListRender_append (l : List Content) (b : String) :
    contentListRender l b = b ++ contentListRender l "" := by
  cases l with
  | nil => simp only [contentListRender]; simp [String.append_empty]
  | cons c t =>
    simp only [contentListRender]
    rw [contentListRender_append t (Content.render_to_buf c b),
      contentListRender_append t (Content.render_to_buf c ""),
      contentRenderToBufAppend c b, String.append_assoc]
theorem contentRenderToBufAppend (c : Content) (b : String) :
    Content.render_to_buf c b = b ++ Content.render_to_buf c "" := by
  cases c with
  | html h => simp only [Content.render_to_buf]; exact htmlRenderToBufAppend h b
  | str s => simp only [Content.render_to_buf]; exact strRenderToBufAppend s b
end

/-! ## List renderers as ordered concatenations -/

theorem attrsRender_concat (l : List Attr) :
    attrsRender l "" = strConcat (l.map fun a => " " ++ a.render_to_buf "") := by
  induction l with
  | nil => rfl
  | cons a rest ih =>
    simp only [attrsRender, List.map, strConcat]
    rw [attrsRender_append rest (a.render_to_buf ("" ++ " ")),
      attrRenderToBufAppend a ("" ++ " "), ih]
    simp [String.empty_append, String.append_assoc]

theorem htmlListRender_concat (l : List Html) :
    htmlListRender l "" = strConcat (l.map Html.render) := by
  induction l with
  | nil => rfl
  | cons h rest ih =>
    simp only [htmlListRender, List.map, strConcat]
    rw [htmlListRender_append rest (Html.render_to_buf h ""), ih]
    rfl

theorem contentListRender_concat (l : List Content) :
    contentListRender l "" = strConcat (l.map Content.render) := by
  induction l with
  | nil => rfl
  | cons c rest ih =>
    simp only [contentListRender, List.map, strConcat]
    rw [contentListRender_append rest (Content.render_to_buf c ""), ih]
    rfl

/-! ## Claims -/

/-- Claim C1: a tag with `self_closing = true` renders as the open marker,
its attributes, and `>`, and stops: the output contains no closing tag and
none of the stored content.  The stored content is unaffected by the flag
(`self_closing` suppresses emission, not storage), so the rendered output
does not depend on the content list at all. -/
theorem C1_self_closing_suppresses_content (n : String) (attrs : List Attr)
    (cont : List Content) (buf : String) :
    Tag.render_to_buf (.mk n attrs cont true) buf
        = buf ++ "<" ++ n ++ attrsRender attrs "" ++ ">"
    ∧ Tag.render (.mk n attrs cont true) = Tag.render (.mk n attrs [] true)
    ∧ (Tag.self_closing (.mk n attrs cont false)).storedContent = cont := by
  refine ⟨?_, rfl, rfl⟩
  simp only [Tag.render_to_buf, if_pos]
  rw [attrsRender_append attrs (buf ++ "<" ++ n)]

/-- Claim C4: an attribute renders as the bare key exactly when its value is
the empty string, and as `key="value"` (value verbatim) exactly when it is
non-empty; a macro attribute with an omitted value compiles to the same
`.attr(key, "")` call as one with an explicit empty-string value, and an
empty-valued attribute inside a full tag renders with no `=` and no
quotes. -/
theorem C4_attr_value_elision (a : Attr) (b : String) (env : Env) (kv : MValue)
    (n k : String) :
    (a.val = "" → a.render_to_buf b = b ++ a.key)
    ∧ (a.val ≠ "" → a.render_to_buf b = b ++ a.key ++ "=\"" ++ a.val ++ "\"")
    ∧ MAttr.compile env ⟨kv, Option.none⟩ = MAttr.compile env ⟨kv, some (.str "")⟩
    ∧ Tag.render ((Tag.new n).attr k "")
        = "<" ++ n ++ " " ++ k ++ ">" ++ "</" ++ n ++ ">" := by
  refine ⟨fun h => by simp [Attr.render_to_buf, h],
    fun h => by simp [Attr.render_to_buf, h], rfl, ?_⟩
  simp [Tag.render, Tag.new, Tag.attr, Tag.render_to_buf, contentListRender,
    attrsRender, Attr.render_to_buf, String.empty_append, String.append_assoc]

/-- Witness for C4 at a concrete attribute: empty value renders the bare key,
non-empty value renders the quoted pair. -/
theorem C4_attr_value_elision_witness :
    (Attr.mk "k" "").render_to_buf "b" = "b" ++ "k"
    ∧ (Attr.mk "k" "v").render_to_buf "b" = "b" ++ "k" ++ "=\"" ++ "v" ++ "\"" :=
  ⟨(C4_attr_value_elision ⟨"k", ""⟩ "b" defaultEnv (.str "") "n" "k").1 rfl,
   (C4_attr_value_elision ⟨"k", "v"⟩ "b" defaultEnv (.str "") "n" "k").2.1 (by decide)⟩

/-- Claim C5: rendering a sequence is the ordered, separator-free
concatenation of rendering its items, and is therefore flattening:
`Html([Html([x, y]), z])` renders identically to `Html([x, y, z])`. -/
theorem C5_sequence_flattening (x y z : Html) (l : List Html) (b : String) :
    Html.render_to_buf (.html l) b = b ++ strConcat (l.map Html.render)
    ∧ Html.render (.html [.html [x, y], z]) = Html.render (.html [x, y, z]) := by
  constructor
  · simp only [Html.render_to_buf]
    rw [htmlListRender_append l b, htmlListRender_concat l]
  · simp only [Html.render, Html.render_to_buf]
    rw [htmlListRender_concat [Html.html [x, y], z], htmlListRender_concat [x, y, z]]
    simp only [List.map, strConcat, Html.render, Html.render_to_buf]
    rw [htmlListRender_concat [x, y]]
    simp only [List.map, strConcat]
    simp [Html.render, String.append_empty, String.append_assoc]

/-- Claim C6: `Tag::attr` appends exactly one attribute at the end of the
attribute list and leaves the name, content, and self-closing flag
unchanged; rendering emits every stored attribute (duplicates included) and
every content item in exactly insertion order. -/
theorem C6_attr_append_order (t : Tag) (k v : String) (l : List Attr)
    (cont : List Content) (n : String) :
    (t.attr k v).attributes = t.attributes ++ [⟨k, v⟩]
    ∧ (t.attr k v).name = t.name
    ∧ (t.attr k v).storedContent = t.storedContent
    ∧ (t.attr k v).isSelfClosing = t.isSelfClosing
    ∧ Tag.render (.mk n l cont false)
        = "<" ++ n ++ strConcat (l.map fun a => " " ++ a.render_to_buf "")
          ++ ">" ++ strConcat (cont.map Content.render) ++ "</" ++ n ++ ">" := by
  obtain ⟨tn, ta, tc, ts⟩ := t
  refine ⟨rfl, rfl, rfl, rfl, ?_⟩
  simp only [Tag.render, Tag.render_to_buf, Bool.false_eq_true, if_false]
  rw [contentListRender_append cont (attrsRender l ("" ++ "<" ++ n) ++ ">"),
    attrsRender_append l ("" ++ "<" ++ n), attrsRender_concat l,
    contentListRender_concat cont]
  simp [String.empty_append, String.append_assoc]

/-- Claim C8: rendering is deterministic and free of observable effects on
the tree: rendering the same tree twice in sequence into a buffer appends
the same output twice (the first render leaves the tree unchanged, since
trees are immutable values and `render_to_buf` only appends to the
buffer). -/
theorem C8_render_deterministic (h : Html) (t : Tag) (b : String) :
    Html.render_to_buf h (Html.render_to_buf h b) = b ++ Html.render h ++ Html.render h
    ∧ Tag.render_to_buf t (Tag.render_to_buf t b) = b ++ Tag.render t ++ Tag.render t := by
  constructor
  · rw [htmlRenderToBufAppend h (Html.render_to_buf h b),
      htmlRenderToBufAppend h b]
    rfl
  · rw [tagRenderToBufAppend t (Tag.render_to_buf t b),
      tagRenderToBufAppend t b]
    rfl

/-- Claim C9: `render_to_buf` is append-only for every node type: the prior
buffer contents survive unchanged as a prefix, and the appended suffix is
exactly what `render` returns on an empty buffer. -/
theorem C9_render_to_buf_append_only (h : Html) (t : Tag) (c : Content)
    (cm : Comment) (s b : String) :
    Html.render_to_buf h b = b ++ Html.render h
    ∧ Tag.render_to_buf t b = b ++ Tag.render t
    ∧ Comment.render_to_buf cm b = b ++ Comment.render cm
    ∧ Content.render_to_buf c b = b ++ Content.render c
    ∧ Str.render_to_buf s b = b ++ s :=
  ⟨htmlRenderToBufAppend h b, tagRenderToBufAppend t b,
   commentRenderToBufAppend cm b, contentRenderToBufAppend c b,
   strRenderToBufAppend s b⟩

/-- Claim C2: `(tag (nested))` parses to a tag named `tag` with zero
attributes and exactly one nested content item (the tag `nested`), and
`(tag key:val)` parses to a tag with the single attribute `key=val`, empty
content, and `self_closing = true`, rendering as `<tag key="val">`.  Both
facts are stated for the parsed macro AST, for its expansion into builder
calls, and for the resulting runtime tree. -/
theorem C2_attr_list_ambiguity (env : Env) :
    hteaml [.paren [.ident "tag", .paren [.ident "nested"]]]
        = .ok (.tag (.mk (.ident "tag") [] (.html (.tag (.mk (.ident "nested") [] .none)))))
    ∧ MHtml.compile env
        (.tag (.mk (.ident "tag") [] (.html (.tag (.mk (.ident "nested") [] .none)))))
        = .tag ((Tag.new "tag").content (.html (.tag ((Tag.new "nested").self_closing))))
    ∧ ((Tag.new "tag").content (.html (.tag ((Tag.new "nested").self_closing)))).attributes = []
    ∧ ((Tag.new "tag").content (.html (.tag ((Tag.new "nested").self_closing)))).storedContent
        = [.html (.tag ((Tag.new "nested").self_closing))]
    ∧ hteaml [.paren [.ident "tag", .ident "key", .colon, .ident "val"]]
        = .ok (.tag (.mk (.ident "tag") [⟨.ident "key", some (.ident "val")⟩] .none))
    ∧ MHtml.compile env (.tag (.mk (.ident "tag") [⟨.ident "key", some (.ident "val")⟩] .none))
        = .tag (((Tag.new "tag").attr "key" "val").self_closing)
    ∧ (((Tag.new "tag").attr "key" "val").self_closing).attributes = [⟨"key", "val"⟩]
    ∧ (((Tag.new "tag").attr "key" "val").self_closing).storedContent = []
    ∧ (((Tag.new "tag").attr "key" "val").self_closing).isSelfClosing = true
    ∧ Tag.render (((Tag.new "tag").attr "key" "val").self_closing) = "<tag key=\"val\">" :=
  ⟨rfl, rfl, rfl, rfl, rfl, rfl, rfl, rfl, rfl, rfl⟩

/-- Claim C3 is false as stated: in `(tag "content")` the token after the
name forms a valid key `Value` not followed by `: value`, yet it IS consumed
as an attribute.  `Attr::parse` accepts a bare key with no colon as a
key-only attribute, so the fork commits one attribute and the tag body is
empty: the result is a self-closing tag with attribute `content` (rendering
`<tag content>`), not a tag with text content. -/
theorem C3_counterexample :
    hteaml [.paren [.ident "tag", .lit "content"]]
        = .ok (.tag (.mk (.ident "tag") [⟨.str "content", Option.none⟩] .none))
    ∧ MHtml.compile defaultEnv
        (.tag (.mk (.ident "tag") [⟨.str "content", Option.none⟩] .none))
        = .tag (((Tag.new "tag").attr "content" "").self_closing)
    ∧ Tag.render (((Tag.new "tag").attr "content" "").self_closing) = "<tag content>" :=
  ⟨rfl, rfl, rfl⟩

/-- Claim C3 (amended): attributes are parsed speculatively on a forked
cursor, and an attribute is a `Value ':' Value` pair or a bare key `Value`
not followed by `:`.  When the fork yields zero attributes, the committed
cursor stays at the end of the name: the tag is parsed with an empty
attribute list and everything after the name is resolved as TagBody from
the name-end cursor. -/
theorem C3_amended_zero_attrs_no_commit (fuel p : Nat) (inner rest : List Tok)
    (name : MValue) (c1 : Cursor)
    (hname : MValue.parse ⟨inner, p + 1⟩ = .ok (name, c1))
    (hzero : (attrLoop (c1.toks.length + 1) c1).1 = []) :
    MTag.parse (fuel + 1) ⟨.paren inner :: rest, p⟩
      = (match tagBody fuel c1 with
         | .error e => .error e
         | .ok (cont, c3) =>
           if c3.toks.isEmpty then .ok (⟨name, [], cont⟩, ⟨rest, c3.pos + 1⟩)
           else .error ⟨c3.pos, "unexpected token"⟩) := by
  simp only [MTag.parse, hname, hzero, List.isEmpty_nil, if_true]

/-- Witness for C3 (amended) at the input `(tag (nested))`: the fork parses
zero attributes, so the nested group is resolved as TagBody content. -/
theorem C3_amended_zero_attrs_no_commit_witness :
    MValue.parse ⟨[.ident "tag", .paren [.ident "nested"]], 1⟩
        = .ok (.ident "tag", ⟨[.paren [.ident "nested"]], 2⟩)
    ∧ (attrLoop 2 ⟨[.paren [.ident "nested"]], 2⟩).1 = []
    ∧ MTag.parse 11 ⟨[.paren [.ident "tag", .paren [.ident "nested"]]], 0⟩
        = .ok (.mk (.ident "tag") [] (.html (.tag (.mk (.ident "nested") [] .none))), ⟨[], 6⟩) :=
  ⟨rfl, rfl, C3_amended_zero_attrs_no_commit 10 0 [.ident "tag", .paren [.ident "nested"]] []
    (.ident "tag") ⟨[.paren [.ident "nested"]], 2⟩ rfl rfl⟩

/-- Claim C7 is false as stated: a malformed attribute pair with a
half-missing value does not always fail the parse.  After at least one
successful attribute, `advance_to(&fork)` commits the fork position left by
the final, failing `Attr::parse`, so the half pair `k:` in
`(tag a:b k: = "x")` is consumed and silently dropped: the parse succeeds
with one attribute and content `"x"`. -/
theorem C7_counterexample :
    hteaml [.paren [.ident "tag", .ident "a", .colon, .ident "b",
                    .ident "k", .colon, .equals, .lit "x"]]
        = .ok (.tag (.mk (.ident "tag") [⟨.ident "a", some (.ident "b")⟩] (.str "x")))
    ∧ (MHtml.compile defaultEnv
        (.tag (.mk (.ident "tag") [⟨.ident "a", some (.ident "b")⟩] (.str "x")))).render
        = "<tag a=\"b\">x</tag>" :=
  ⟨rfl, rfl⟩

/-- Claim C7 (amended): unrecoverable parse failures surface a structured
error carrying a position and an expectation message, and propagate to the
whole-input parse — a missing `Value`, a half-missing attribute key or
value (outside a committed fork), and leftover tokens all fail — except
that a trailing malformed attribute pair following at least one successful
attribute is consumed by the committed fork and silently dropped. -/
theorem C7_amended_errors_surface :
    MValue.parse ⟨[], 5⟩
        = .error ⟨5, "expected either a string literal, token or a \x7b braced Rust expression \x7d"⟩
    ∧ MTag.parse 9 ⟨[.paren []], 0⟩
        = .error ⟨1, "expected either a string literal, token or a \x7b braced Rust expression \x7d"⟩
    ∧ (MAttr.parse ⟨[.ident "k", .colon], 0⟩).1
        = .error ⟨2, "expected key:value pairs for attributes"⟩
    ∧ (MAttr.parse ⟨[.colon, .ident "v"], 0⟩).1
        = .error ⟨2, "expected key:value pairs for attributes"⟩
    ∧ MTag.parse 9 ⟨[.paren [.ident "tag", .ident "k", .colon]], 0⟩
        = .error ⟨2, "unexpected token"⟩
    ∧ hteaml [.paren [.ident "tag", .ident "k", .colon]]
        = .error ⟨0, "expected curly braces"⟩
    ∧ hteaml [.paren []]
        = .error ⟨0, "expected curly braces"⟩ :=
  ⟨rfl, rfl, rfl, rfl, rfl, rfl, rfl⟩

/-- Claim C10: a `Value` key not followed by `:` parses as a key-only
attribute (no value); such an attribute compiles to `.attr(key, "")` with an
empty-string value and therefore renders as the bare key with no `="..."`
part. -/
theorem C10_key_only_attribute (c c1 : Cursor) (k : MValue) (e : ParseErr)
    (env : Env) (n key : String)
    (hk : MValue.parse c = .ok (k, c1)) (hc : parseColon c1 = .error e) :
    MAttr.parse c = (.ok ⟨k, Option.none⟩, c1)
    ∧ MAttr.compile env ⟨k, Option.none⟩ = (MValue.compile env k, "")
    ∧ Tag.render (((Tag.new n).attr key "").self_closing)
        = "<" ++ n ++ " " ++ key ++ ">" := by
  refine ⟨?_, rfl, ?_⟩
  · simp only [MAttr.parse, hk, hc]
  · simp [Tag.render, Tag.new, Tag.attr, Tag.self_closing, Tag.render_to_buf,
      attrsRender, Attr.render_to_buf, String.empty_append, String.append_assoc]

/-- Witness for C10 at the concrete stream `k` (a single identifier): the
attribute parses key-only and an empty-valued attribute renders bare. -/
theorem C10_key_only_attribute_witness :
    MValue.parse ⟨[.ident "k"], 0⟩ = .ok (.ident "k", ⟨[], 1⟩)
    ∧ parseColon ⟨[], 1⟩ = .error ⟨1, "expected colon"⟩
    ∧ MAttr.parse ⟨[.ident "k"], 0⟩ = (.ok ⟨.ident "k", Option.none⟩, ⟨[], 1⟩)
    ∧ Tag.render (((Tag.new "input").attr "checked" "").self_closing)
        = "<" ++ "input" ++ " " ++ "checked" ++ ">" :=
  ⟨rfl, rfl,
   (C10_key_only_attribute ⟨[.ident "k"], 0⟩ ⟨[], 1⟩ (.ident "k") ⟨1, "expected colon"⟩
     defaultEnv "input" "checked" rfl rfl).1,
   (C10_key_only_attribute ⟨[.ident "k"], 0⟩ ⟨[], 1⟩ (.ident "k") ⟨1, "expected colon"⟩
     defaultEnv "input" "checked" rfl rfl).2.2⟩

end Hteaml
